import Mathlib

/-!
Shallow embedding of `TensorNetSimulationState`
(`src/runtime/nvqir/cutensornet/tn_simulation_state.cpp`).

The contraction backend (cuTensorNet), device memory and the scratch pool are
external collaborators; they appear as explicit parameters:
* device-resident tensor data is a heap `DeviceMem` indexed by opaque handles;
* the backend's state-vector materialization and pinned-mode accessor queries
  are fields of `ContractionBackend`;
* the workspace size reported by `cutensornetWorkspaceGetMemorySize` and the
  scratch pool capacity are explicit arguments of `overlap`;
* complex doubles are modelled by exact rational pairs `CC` (the claims under
  study are structural, not about floating-point rounding).

Effects of each C++ member function are made explicit in its result record:
the updated manager, the list of backend queries issued, the updated device
memory, and (for `overlap`) the ledger of device-side temporaries still
allocated at the exit point.
-/

namespace nvqir

/-- Stand-in for `std::complex<double>`: an exact real/imaginary pair. -/
abbrev CC : Type := ℚ × ℚ

/-- The zero complex value. -/
def cZero : CC := (0, 0)

/-- One applied operator, mirroring the record type behind
`m_state->m_tensorOps` (fields as used in the source: `targetQubitIds`,
`controlQubitIds`, `deviceData`, `isUnitary`, `isAdjoint`).  `deviceData` is
an opaque non-owning handle into device memory. -/
structure GateTensorRecord where
  targetQubitIds : List Nat
  controlQubitIds : List Nat
  deviceData : Nat
  isUnitary : Bool
  isAdjoint : Bool
  deriving DecidableEq, Repr

/-- The tensor network state owned by the manager: a fixed qubit count and the
append-only ordered operator list (`m_tensorOps`). -/
structure TensorNetState where
  numQubits : Nat
  tensorOps : List GateTensorRecord
  deriving DecidableEq, Repr

/-- A device-resident square matrix (row list). -/
abbrev Mat : Type := List (List CC)

/-- Device memory: tensor data addressed by opaque handles. -/
abbrev DeviceMem : Type := List Mat

/-- Read the tensor stored at `handle` (unallocated handles read as empty). -/
def memRead (mem : DeviceMem) (handle : Nat) : Mat := mem.getD handle []

/-- Error taxonomy of the member functions under study (the C++ code throws
`std::runtime_error` / `std::out_of_range`; the spec's taxonomy names them). -/
inductive TNError
  | invalidArgument
  | outOfRange
  | dimensionMismatch
  | resourceExhausted
  deriving DecidableEq, Repr

/-- The simulation state manager: `m_state` plus the lazily populated dense
cache `m_contractedStateVec` (empty = not yet computed). -/
structure TensorNetSimulationState where
  m_state : TensorNetState
  m_contractedStateVec : List CC
  deriving DecidableEq, Repr

/-- External contraction backend interface: `m_state->getStateVector()` (full
materialization) and `m_state->getStateVector(projectedModes, values)`
(pinned-mode accessor query). -/
structure ContractionBackend where
  stateVector : List CC
  pinnedStateVector : List Nat → List Int → List CC

/-- One backend query issued during a call (for stating "at most once" /
"no backend query" properties). -/
inductive BQuery
  | materialize
  | accessor (projectedModes : List Nat) (projectedModeValues : List Int)
  deriving DecidableEq, Repr

/-- Result record of `getAmplitude`: returned value (or error), the manager
after the call, and the backend queries issued. -/
structure AmpRun where
  result : Except TNError CC
  mgr : TensorNetSimulationState
  calls : List BQuery

/-- The index fold of `getAmplitude`:
`std::accumulate(rbegin, rend, 0ull, acc << 1 + bit)` — scans the assignment
from the last qubit to the first.  (On the reachable inputs the C++ `size_t`
accumulator cannot wrap: validated bits are 0/1 and the cached vector of
`2^n` entries bounds `n` far below 64.) -/
def basisStateIndex (basisState : List Int) : Nat :=
  basisState.reverse.foldl (fun acc bit => acc * 2 + bit.toNat) 0

/-- `TensorNetSimulationState::getAmplitude` (source lines 167-204).
`thresh` is the configured small-system threshold
`g_maxQubitsForStateContraction` (its value lives outside this file's
sources, so it is a parameter). -/
def getAmplitude (bk : ContractionBackend) (thresh : Nat)
    (m : TensorNetSimulationState) (basisState : List Int) : AmpRun :=
  -- guard 1: wrong number of bits
  if m.m_state.numQubits ≠ basisState.length then
    ⟨.error .invalidArgument, m, []⟩
  -- guard 2: an entry other than 0/1
  else if basisState.any (fun x => x != 0 && x != 1) then
    ⟨.error .invalidArgument, m, []⟩
  -- guard 3: empty basis state
  else if basisState.isEmpty then
    ⟨.error .invalidArgument, m, []⟩
  else if m.m_state.numQubits ≤ thresh then
    -- small system: materialize once into the cache, then index directly
    if m.m_contractedStateVec.isEmpty then
      let vec := bk.stateVector
      ⟨.ok (vec.getD (basisStateIndex basisState) cZero),
        { m with m_contractedStateVec := vec }, [.materialize]⟩
    else
      ⟨.ok (m.m_contractedStateVec.getD (basisStateIndex basisState) cZero),
        m, []⟩
  else
    -- large system: one accessor query with every qubit pinned
    let projectedModes := List.range m.m_state.numQubits
    let projectedModeValues := basisState
    let subStateVec := bk.pinnedStateVector projectedModes projectedModeValues
    ⟨.ok (subStateVec.headD cZero), m,
      [.accessor projectedModes projectedModeValues]⟩

/-- Result record of `toHost`. -/
structure ToHostRun where
  result : Except TNError (List CC)
  mgr : TensorNetSimulationState
  calls : List BQuery

/-- `TensorNetSimulationState::toHost` (source lines 262-272): always a fresh
`m_state->getStateVector()` (never the cache), then the size check, then the
element-by-element copy into the caller's buffer (the `.ok` payload). -/
def toHost (bk : ContractionBackend) (m : TensorNetSimulationState)
    (numElements : Nat) : ToHostRun :=
  let stateVec := bk.stateVector
  if stateVec.length ≠ numElements then
    ⟨.error .dimensionMismatch, m, [.materialize]⟩
  else
    ⟨.ok stateVec, m, [.materialize]⟩

/-- Numeric precision tag (`getPrecision()`; the tensornet state is
`CUDA_C_64F`). -/
inductive Precision
  | fp64
  deriving DecidableEq, Repr

/-- An exported tensor view (`cudaq::SimulationState::Tensor`): aliased data
handle, extents, precision. -/
structure Tensor where
  data : Nat
  extents : List Nat
  fp_precision : Precision
  deriving DecidableEq, Repr

/-- `TensorNetSimulationState::getNumTensors` (source lines 235-237). -/
def getNumTensors (m : TensorNetSimulationState) : Nat :=
  m.m_state.tensorOps.length

/-- `TensorNetSimulationState::getTensor` (source lines 206-217). -/
def getTensor (m : TensorNetSimulationState) (tensorIdx : Nat) :
    Except TNError Tensor :=
  if h : getNumTensors m ≤ tensorIdx then .error .outOfRange
  else
    let opTensor := m.m_state.tensorOps.get ⟨tensorIdx, Nat.lt_of_not_le h⟩
    .ok ⟨opTensor.deviceData,
      List.replicate (2 * opTensor.targetQubitIds.length) 2, .fp64⟩

/-- The bra-side conjugation of `overlap`: flip `isAdjoint` on a copy of the
record. -/
def flipAdjoint (op : GateTensorRecord) : GateTensorRecord :=
  { op with isAdjoint := !op.isAdjoint }

/-- One iteration's device-memory effect in the `overlap` bra loop: for a
non-unitary op, transpose its tensor data in place (the
cudaMemcpy/transposeInPlace/cudaMemcpy sequence, source lines 46-59);
unitary ops leave memory untouched. -/
def transposeStep (mem : DeviceMem) (op : GateTensorRecord) : DeviceMem :=
  if op.isUnitary then mem
  else mem.set op.deviceData (memRead mem op.deviceData).transpose

/-- The `overlap` bra loop (source lines 44-60), run over the already
reversed copied list: flips each record's `isAdjoint` and transposes the
device data of each non-unitary record in place.  Returns the transformed
list and the updated device memory. -/
def conjugateBraOps :
    List GateTensorRecord → DeviceMem → List GateTensorRecord × DeviceMem
  | [], mem => ([], mem)
  | op :: rest, mem =>
    let op' := flipAdjoint op
    let mem' := transposeStep mem op'
    let r := conjugateBraOps rest mem'
    (op' :: r.1, r.2)

/-- The accessor query `overlap` hands to the backend: the temporary network's
qubit count, the operators applied to it in order, the projected modes and
values (`cutensornetCreateAccessor` / `cutensornetAccessorCompute`), and the
configured hyper-sample count. -/
structure OverlapQuery where
  numQubits : Nat
  appliedOps : List GateTensorRecord
  projectedModes : List Nat
  projectedModeValues : List Int
  numHyperSamples : Nat
  deriving DecidableEq, Repr

/-- Symbolic magnitude: `AbsVal.mk z` stands for `std::abs(z)`, the value
`overlap` returns for computed amplitude `z`. -/
structure AbsVal where
  arg : CC
  deriving DecidableEq, Repr

/-- Device-side temporaries allocated during `overlap`: the device scalar for
the result (`d_overlap`, cudaMalloc line 103), the workspace descriptor
(line 125), the accessor (line 108) and the temporary tensor network state
(line 67). -/
inductive Res
  | dOverlap
  | workDesc
  | accessor
  | tempState
  deriving DecidableEq, Repr

/-- Result record of `overlap`: returned value (or error), device memory after
the call, the accessor query issued (if the computation was reached), and the
temporaries still allocated at the exit point. -/
structure OverlapRun where
  result : Except TNError AbsVal
  mem : DeviceMem
  query : Option OverlapQuery
  live : List Res

/-- `TensorNetSimulationState::overlap` (source lines 31-165), on the
network-based path (the `dynamic_cast` succeeded; the cross-representation
`UnsupportedType` path is outside this embedding).

External inputs: `worksize` is what `cutensornetWorkspaceGetMemorySize`
reports for the prepared accessor plan (an `int64_t`), `scratchSize` the
scratch pool capacity, `ampOf` the backend's `cutensornetAccessorCompute`.

Steps, in source order: copy `other`'s operator list, reverse it, flip each
`isAdjoint` and transpose non-unitary tensor data in place
(`conjugateBraOps`); create the temporary state over
`max(numQubits, other.numQubits)` qubits; append self's ops then the
transformed bra ops; project all modes to zero; allocate `d_overlap`, the
accessor (configured with 8 hyper samples) and the workspace descriptor;
if the reported workspace size exceeds the scratch capacity, throw —
leaving all four temporaries allocated (the frees at lines 159-162 are only
reached on the success path); otherwise compute, free everything and return
the magnitude of the amplitude. -/
def overlap (self other : TensorNetState) (mem : DeviceMem)
    (worksize : Int) (scratchSize : Nat) (ampOf : OverlapQuery → CC) :
    OverlapRun :=
  let p := conjugateBraOps other.tensorOps.reverse mem
  let braOps := p.1
  let mem' := p.2
  let nbQubits := max self.numQubits other.numQubits
  let allTensorOps := self.tensorOps ++ braOps
  let projectedModes := List.range nbQubits
  let projectedModeValues := List.replicate nbQubits (0 : Int)
  let numHyperSamples : Nat := 8
  let q : OverlapQuery :=
    ⟨nbQubits, allTensorOps, projectedModes, projectedModeValues,
      numHyperSamples⟩
  if worksize ≤ (scratchSize : Int) then
    { result := .ok ⟨ampOf q⟩
      mem := mem'
      query := some q
      live := [] }
  else
    { result := .error .resourceExhausted
      mem := mem'
      query := none
      live := [.dOverlap, .workDesc, .accessor, .tempState] }

/-! ### Helper lemmas -/

/-- A list of 0/1 values passes the `getAmplitude` bit guard. -/
theorem any_nonbit_eq_false {b : List Int} (hbits : ∀ x ∈ b, x = 0 ∨ x = 1) :
    (b.any fun x => x != 0 && x != 1) = false := by
  induction b with
  | nil => rfl
  | cons x t ih =>
    have hx := hbits x (by simp)
    have ht : ∀ y ∈ t, y = 0 ∨ y = 1 := fun y hy => hbits y (by simp [hy])
    rcases hx with h | h <;> simp [h, ih ht]

/-- The `getAmplitude` bit guard fires exactly on a non-0/1 entry. -/
theorem any_nonbit_iff {b : List Int} :
    (b.any fun x => x != 0 && x != 1) = true ↔ ∃ x ∈ b, x ≠ 0 ∧ x ≠ 1 := by
  simp [List.any_eq_true]

/-- `isEmpty` characterization used for the third guard. -/
theorem list_isEmpty_true_iff {α : Type} (l : List α) :
    l.isEmpty = true ↔ l = [] := by
  cases l <;> simp

/-- `getAmplitude` on a wrong-length basis state: first guard fires. -/
theorem getAmplitude_guard_len (bk : ContractionBackend) (thresh : Nat)
    (m : TensorNetSimulationState) (b : List Int)
    (h : m.m_state.numQubits ≠ b.length) :
    getAmplitude bk thresh m b = ⟨.error .invalidArgument, m, []⟩ := by
  unfold getAmplitude
  simp [h]

/-- `getAmplitude` on a non-0/1 entry: second guard fires. -/
theorem getAmplitude_guard_bits (bk : ContractionBackend) (thresh : Nat)
    (m : TensorNetSimulationState) (b : List Int)
    (h1 : m.m_state.numQubits = b.length)
    (h2 : (b.any fun x => x != 0 && x != 1) = true) :
    getAmplitude bk thresh m b = ⟨.error .invalidArgument, m, []⟩ := by
  unfold getAmplitude
  simp [h1, h2]

/-- `getAmplitude` on an empty basis state that passed the first two guards:
third guard fires. -/
theorem getAmplitude_guard_empty (bk : ContractionBackend) (thresh : Nat)
    (m : TensorNetSimulationState) (b : List Int)
    (h1 : m.m_state.numQubits = b.length)
    (h2 : (b.any fun x => x != 0 && x != 1) = false)
    (h3 : b.isEmpty = true) :
    getAmplitude bk thresh m b = ⟨.error .invalidArgument, m, []⟩ := by
  unfold getAmplitude
  simp [h1, h2, h3]

/-- On a valid basis state, `getAmplitude` reduces to its two strategy
branches. -/
theorem getAmplitude_valid_eq (bk : ContractionBackend) (thresh : Nat)
    (m : TensorNetSimulationState) (b : List Int)
    (h1 : m.m_state.numQubits = b.length)
    (h2 : (b.any fun x => x != 0 && x != 1) = false)
    (h3 : b.isEmpty = false) :
    getAmplitude bk thresh m b =
      if m.m_state.numQubits ≤ thresh then
        if m.m_contractedStateVec.isEmpty then
          ⟨.ok (bk.stateVector.getD (basisStateIndex b) cZero),
            { m with m_contractedStateVec := bk.stateVector }, [.materialize]⟩
        else
          ⟨.ok (m.m_contractedStateVec.getD (basisStateIndex b) cZero), m, []⟩
      else
        ⟨.ok ((bk.pinnedStateVector (List.range m.m_state.numQubits) b).headD
            cZero),
          m, [.accessor (List.range m.m_state.numQubits) b]⟩ := by
  unfold getAmplitude
  simp [h1, h2, h3]

/-- Writing device memory at one handle does not disturb any other handle. -/
theorem memRead_set_ne : ∀ (mem : DeviceMem) (d : Nat) (v : Mat) (h : Nat),
    h ≠ d → memRead (mem.set d v) h = memRead mem h := by
  intro mem
  induction mem with
  | nil => intro d v h _; rfl
  | cons m rest ih =>
    intro d v h hne
    cases d with
    | zero =>
      cases h with
      | zero => exact absurd rfl hne
      | succ h' => rfl
    | succ d' =>
      cases h with
      | zero => rfl
      | succ h' => exact ih d' v h' (fun e => hne (by rw [e]))

/-- The bra loop's list output: each record of the (already reversed) input
with its `isAdjoint` flag flipped, order preserved. -/
theorem conjugateBraOps_fst (l : List GateTensorRecord) (mem : DeviceMem) :
    (conjugateBraOps l mem).1 = l.map flipAdjoint := by
  induction l generalizing mem with
  | nil => rfl
  | cons op rest ih => simp [conjugateBraOps, ih]

/-- The bra loop's device-memory effect is confined to the handles referenced
by non-unitary records. -/
theorem conjugateBraOps_snd_frame (l : List GateTensorRecord) (mem : DeviceMem)
    (h : Nat) (hh : ∀ op ∈ l, op.isUnitary = false → op.deviceData ≠ h) :
    memRead (conjugateBraOps l mem).2 h = memRead mem h := by
  induction l generalizing mem with
  | nil => rfl
  | cons op rest ih =>
    have hop := hh op (by simp)
    have hrest : ∀ op' ∈ rest, op'.isUnitary = false → op'.deviceData ≠ h :=
      fun o ho => hh o (by simp [ho])
    simp only [conjugateBraOps]
    rw [ih _ hrest]
    unfold transposeStep flipAdjoint
    by_cases hu : op.isUnitary
    · simp [hu]
    · have hd : op.deviceData ≠ h := hop (Bool.eq_false_iff.mpr hu)
      simp only [hu, if_neg]
      exact memRead_set_ne mem op.deviceData _ h (fun e => hd e.symm)

/-- The bra loop on a single non-unitary record transposes exactly that
record's device data. -/
theorem conjugateBraOps_snd_single (op : GateTensorRecord) (mem : DeviceMem)
    (hu : op.isUnitary = false) :
    (conjugateBraOps [op] mem).2 =
      mem.set op.deviceData (memRead mem op.deviceData).transpose := by
  simp [conjugateBraOps, transposeStep, flipAdjoint, hu]

/-- `overlap`'s device memory after the call is the bra loop's effect,
regardless of which exit path is taken. -/
theorem overlap_mem_eq (self other : TensorNetState) (mem : DeviceMem)
    (worksize : Int) (scratchSize : Nat) (ampOf : OverlapQuery → CC) :
    (overlap self other mem worksize scratchSize ampOf).mem =
      (conjugateBraOps other.tensorOps.reverse mem).2 := by
  unfold overlap
  by_cases hw : worksize ≤ (scratchSize : Int) <;> simp [hw]

/-- Claim C4: on the success path (workspace fits), overlap's backend query
is exactly: the temporary network over `max(numQubits_self, numQubits_other)`
qubits, the ket ops unmodified followed by the order-reversed
adjoint-flipped bra ops, all modes projected to the all-zero basis state,
8 hyper samples; the returned value is the magnitude of the amplitude the
backend computes for that query. -/
theorem overlap_query_structure (self other : TensorNetState)
    (mem : DeviceMem) (worksize : Int) (scratchSize : Nat)
    (ampOf : OverlapQuery → CC) (hw : worksize ≤ (scratchSize : Int)) :
    (overlap self other mem worksize scratchSize ampOf).query =
      some ⟨max self.numQubits other.numQubits,
        self.tensorOps ++ other.tensorOps.reverse.map flipAdjoint,
        List.range (max self.numQubits other.numQubits),
        List.replicate (max self.numQubits other.numQubits) 0, 8⟩ ∧
    (overlap self other mem worksize scratchSize ampOf).result =
      .ok ⟨ampOf ⟨max self.numQubits other.numQubits,
        self.tensorOps ++ other.tensorOps.reverse.map flipAdjoint,
        List.range (max self.numQubits other.numQubits),
        List.replicate (max self.numQubits other.numQubits) 0, 8⟩⟩ := by
  unfold overlap
  simp [hw, conjugateBraOps_fst]

/-- Witness for C4: a concrete 1-qubit ket against a 2-qubit bra with two
gates; the query holds the ket op, then the bra ops reversed with flipped
adjoint flags, over `max 1 2 = 2` qubits, all-zero projection, 8 samples. -/
theorem overlap_query_structure_witness :
    (overlap ⟨1, [⟨[0], [], 3, true, false⟩]⟩
        ⟨2, [⟨[0], [], 4, true, false⟩, ⟨[1], [], 5, true, true⟩]⟩
        [] 0 0 (fun _ => cZero)).query =
      some ⟨2, [⟨[0], [], 3, true, false⟩, ⟨[1], [], 5, true, false⟩,
        ⟨[0], [], 4, true, true⟩], [0, 1], [0, 0], 8⟩ ∧
    (overlap ⟨1, [⟨[0], [], 3, true, false⟩]⟩
        ⟨2, [⟨[0], [], 4, true, false⟩, ⟨[1], [], 5, true, true⟩]⟩
        [] 0 0 (fun _ => cZero)).result = .ok ⟨cZero⟩ := by
  have h := overlap_query_structure ⟨1, [⟨[0], [], 3, true, false⟩]⟩
    ⟨2, [⟨[0], [], 4, true, false⟩, ⟨[1], [], 5, true, true⟩]⟩
    [] 0 0 (fun _ => cZero) (by decide)
  exact ⟨h.1, h.2⟩

/-- Claim C1 counterexample: one non-unitary bra-side record holding a
non-symmetric 2×2 tensor; the overlap call succeeds, yet the device data the
record references has been transposed in place, so the device memory after
the call differs from the memory before — the claim's frame condition fails
on the code. -/
theorem overlap_mutates_nonunitary_device_data :
    (overlap ⟨1, []⟩ ⟨1, [⟨[0], [], 0, false, false⟩]⟩
        [[[(1, 0), (2, 0)], [(3, 0), (4, 0)]]] 0 0 (fun _ => cZero)).result =
      .ok ⟨cZero⟩ ∧
    (overlap ⟨1, []⟩ ⟨1, [⟨[0], [], 0, false, false⟩]⟩
        [[[(1, 0), (2, 0)], [(3, 0), (4, 0)]]] 0 0 (fun _ => cZero)).mem ≠
      [[[(1, 0), (2, 0)], [(3, 0), (4, 0)]]] := by
  exact ⟨rfl, by decide⟩

/-- Claim C1 amended: a successful overlap leaves the operator lists and
flags of both states untouched (the reversal and adjoint flip act on a copy
of the records) and leaves the device data of every handle not referenced by
a non-unitary record of `other` unchanged; but the device data referenced by
a non-unitary record of `other` is transposed in place and remains
transposed after the call. -/
theorem overlap_frame_amended (self other : TensorNetState) (mem : DeviceMem)
    (worksize : Int) (scratchSize : Nat) (ampOf : OverlapQuery → CC) :
    (∀ h : Nat,
      (∀ op ∈ other.tensorOps, op.isUnitary = false → op.deviceData ≠ h) →
      memRead (overlap self other mem worksize scratchSize ampOf).mem h =
        memRead mem h) ∧
    (∀ op : GateTensorRecord, other.tensorOps = [op] → op.isUnitary = false →
      (overlap self other mem worksize scratchSize ampOf).mem =
        mem.set op.deviceData (memRead mem op.deviceData).transpose) := by
  constructor
  · intro h hh
    rw [overlap_mem_eq]
    exact conjugateBraOps_snd_frame _ _ _
      (fun op ho => hh op (List.mem_reverse.mp ho))
  · intro op hops hu
    rw [overlap_mem_eq, hops, List.reverse_singleton]
    exact conjugateBraOps_snd_single op mem hu

/-- Witness for the amended C1: with a non-unitary record at handle 0 and a
bystander tensor at handle 1, the call transposes handle 0 exactly and
leaves handle 1 as it was. -/
theorem overlap_frame_amended_witness :
    memRead (overlap ⟨1, []⟩ ⟨1, [⟨[0], [], 0, false, false⟩]⟩
        [[[(1, 0), (2, 0)], [(3, 0), (4, 0)]], [[(7, 0)]]] 0 0
        (fun _ => cZero)).mem 1 =
      memRead [[[(1, 0), (2, 0)], [(3, 0), (4, 0)]], [[(7, 0)]]] 1 ∧
    (overlap ⟨1, []⟩ ⟨1, [⟨[0], [], 0, false, false⟩]⟩
        [[[(1, 0), (2, 0)], [(3, 0), (4, 0)]], [[(7, 0)]]] 0 0
        (fun _ => cZero)).mem =
      ([[[(1, 0), (2, 0)], [(3, 0), (4, 0)]], [[(7, 0)]]] : DeviceMem).set 0
        (memRead [[[(1, 0), (2, 0)], [(3, 0), (4, 0)]], [[(7, 0)]]] 0).transpose := by
  have h := overlap_frame_amended ⟨1, []⟩ ⟨1, [⟨[0], [], 0, false, false⟩]⟩
    [[[(1, 0), (2, 0)], [(3, 0), (4, 0)]], [[(7, 0)]]] 0 0 (fun _ => cZero)
  exact ⟨h.1 1 (by decide), h.2 ⟨[0], [], 0, false, false⟩ rfl rfl⟩

/-- Claim C2 (code defect): when the prepared plan's workspace requirement
exceeds the scratch capacity, `overlap` raises the insufficient-workspace
error (`ResourceExhausted`) with the device result buffer, the workspace
descriptor, the accessor and the temporary network state all still
allocated — the frees at lines 159-162 are only reached on the success
path — so the release-on-every-exit contract does not hold; on the success
path everything is released. -/
theorem overlap_leaks_temporaries_on_resource_exhausted :
    (overlap ⟨1, []⟩ ⟨1, []⟩ [] 1 0 (fun _ => cZero)).result =
      .error .resourceExhausted ∧
    (overlap ⟨1, []⟩ ⟨1, []⟩ [] 1 0 (fun _ => cZero)).live =
      [.dOverlap, .workDesc, .accessor, .tempState] ∧
    (overlap ⟨1, []⟩ ⟨1, []⟩ [] 0 0 (fun _ => cZero)).live = [] := by
  exact ⟨rfl, rfl, rfl⟩

/-- Claim C3 counterexample: with two zero-qubit states, `overlap` does not
fail with `InvalidArgument`: it proceeds, issues the backend accessor query
over the degenerate zero-qubit network, and returns an amplitude
magnitude. -/
theorem overlap_zero_qubits_counterexample :
    (overlap ⟨0, []⟩ ⟨0, []⟩ [] 0 0 (fun _ => cZero)).result = .ok ⟨cZero⟩ ∧
    (overlap ⟨0, []⟩ ⟨0, []⟩ [] 0 0 (fun _ => cZero)).query =
      some ⟨0, [], [], [], 8⟩ :=
  ⟨rfl, rfl⟩

/-- Claim C3 amended: `overlap` performs no zero-qubit validation; when self
or other has zero qubits it never raises `InvalidArgument`, and whenever the
workspace fits it builds the temporary network over
`max(numQubits_self, numQubits_other)` qubits and runs the backend
contraction exactly as in the general case. -/
theorem overlap_zero_qubits_amended (self other : TensorNetState)
    (mem : DeviceMem) (worksize : Int) (scratchSize : Nat)
    (ampOf : OverlapQuery → CC)
    (_h0 : self.numQubits = 0 ∨ other.numQubits = 0) :
    (overlap self other mem worksize scratchSize ampOf).result ≠
      .error .invalidArgument ∧
    (worksize ≤ (scratchSize : Int) →
      (overlap self other mem worksize scratchSize ampOf).query =
        some ⟨max self.numQubits other.numQubits,
          self.tensorOps ++ other.tensorOps.reverse.map flipAdjoint,
          List.range (max self.numQubits other.numQubits),
          List.replicate (max self.numQubits other.numQubits) 0, 8⟩) := by
  constructor
  · unfold overlap
    by_cases hw : worksize ≤ (scratchSize : Int) <;> simp [hw]
  · intro hw
    unfold overlap
    simp [hw, conjugateBraOps_fst]

/-- Witness for the amended C3, on the mixed case: a zero-qubit ket against
a two-qubit bra; the call proceeds over `max 0 2 = 2` qubits, issuing the
accessor query, with no `InvalidArgument`. -/
theorem overlap_zero_qubits_amended_witness :
    (overlap ⟨0, []⟩ ⟨2, [⟨[0], [], 4, true, false⟩]⟩ [] 0 5
        (fun _ => cZero)).result ≠ .error .invalidArgument ∧
    (overlap ⟨0, []⟩ ⟨2, [⟨[0], [], 4, true, false⟩]⟩ [] 0 5
        (fun _ => cZero)).query =
      some ⟨2, [⟨[0], [], 4, true, true⟩], [0, 1], [0, 0], 8⟩ := by
  have h := overlap_zero_qubits_amended ⟨0, []⟩ ⟨2, [⟨[0], [], 4, true, false⟩]⟩
    [] 0 5 (fun _ => cZero) (Or.inl rfl)
  exact ⟨h.1, h.2 (by decide)⟩

/-- `isEmpty` is false exactly on nonempty lists. -/
theorem list_isEmpty_false_iff {α : Type} (l : List α) :
    l.isEmpty = false ↔ l ≠ [] := by
  cases l <;> simp

/-- The fold of `basisStateIndex` (last qubit to first) computes the
little-endian value Σ bᵢ·2ⁱ with qubit 0 as the least-significant bit. -/
theorem basisStateIndex_eq_sum (b : List Int) :
    basisStateIndex b =
      ∑ i ∈ Finset.range b.length, (b.getD i 0).toNat * 2 ^ i := by
  induction b with
  | nil => rfl
  | cons x t ih =>
    have hstep : basisStateIndex (x :: t) = basisStateIndex t * 2 + x.toNat := by
      simp [basisStateIndex, List.foldl_append]
    rw [hstep, ih, List.length_cons, Finset.sum_range_succ']
    simp only [List.getD_cons_succ, List.getD_cons_zero, pow_zero, mul_one,
      pow_succ]
    rw [Finset.sum_mul]
    congr 1
    exact Finset.sum_congr rfl (fun i _ => by ring)

/-- Claim C5: `getAmplitude` picks its strategy by qubit count.  At or below
the threshold it materializes through the backend only when the cache is
empty (exactly one `materialize` query, cache then holds the backend vector
and is nonempty, so later calls issue no backend query and reuse it) and
answers by direct indexing; above the threshold it issues exactly one
accessor query with all qubits pinned to the assignment, touches neither the
cache nor the backend materialization, and returns that scalar. -/
theorem getAmplitude_strategy (bk : ContractionBackend) (thresh : Nat)
    (m : TensorNetSimulationState) (b : List Int)
    (hbk : bk.stateVector.length = 2 ^ m.m_state.numQubits)
    (hlen : m.m_state.numQubits = b.length)
    (hbits : ∀ x ∈ b, x = 0 ∨ x = 1) (hne : b ≠ []) :
    (m.m_state.numQubits ≤ thresh →
      (m.m_contractedStateVec = [] →
        (getAmplitude bk thresh m b).calls = [.materialize] ∧
        (getAmplitude bk thresh m b).mgr.m_contractedStateVec =
          bk.stateVector ∧
        (getAmplitude bk thresh m b).mgr.m_contractedStateVec ≠ [] ∧
        (getAmplitude bk thresh m b).result =
          .ok (bk.stateVector.getD (basisStateIndex b) cZero)) ∧
      (m.m_contractedStateVec ≠ [] →
        (getAmplitude bk thresh m b).calls = [] ∧
        (getAmplitude bk thresh m b).mgr = m ∧
        (getAmplitude bk thresh m b).result =
          .ok (m.m_contractedStateVec.getD (basisStateIndex b) cZero))) ∧
    (thresh < m.m_state.numQubits →
      (getAmplitude bk thresh m b).calls =
        [.accessor (List.range m.m_state.numQubits) b] ∧
      (getAmplitude bk thresh m b).mgr = m ∧
      (getAmplitude bk thresh m b).result =
        .ok ((bk.pinnedStateVector (List.range m.m_state.numQubits)
          b).headD cZero)) := by
  have h2 := any_nonbit_eq_false hbits
  have h3 : b.isEmpty = false := (list_isEmpty_false_iff b).mpr hne
  have key := getAmplitude_valid_eq bk thresh m b hlen h2 h3
  constructor
  · intro hth
    rw [if_pos hth] at key
    constructor
    · intro hc
      have hc' : m.m_contractedStateVec.isEmpty = true :=
        (list_isEmpty_true_iff _).mpr hc
      rw [if_pos hc'] at key
      refine ⟨by rw [key], by rw [key], ?_, by rw [key]⟩
      rw [key]
      show bk.stateVector ≠ []
      intro hnil
      have hpos : 0 < 2 ^ m.m_state.numQubits := pow_pos (by norm_num) _
      rw [hnil] at hbk
      simp only [List.length_nil] at hbk
      omega
    · intro hc
      have hc' : m.m_contractedStateVec.isEmpty = false :=
        (list_isEmpty_false_iff _).mpr hc
      rw [if_neg (by simp [hc'])] at key
      exact ⟨by rw [key], by rw [key], by rw [key]⟩
  · intro hth
    rw [if_neg (Nat.not_le_of_lt hth)] at key
    exact ⟨by rw [key], by rw [key], by rw [key]⟩

/-- Witness for C5: one qubit at the threshold, empty cache; the call issues
exactly the materialization query and indexes the cached vector. -/
theorem getAmplitude_strategy_witness :
    (getAmplitude ⟨[((1 : ℚ), (0 : ℚ)), (0, 0)], fun _ _ => [cZero]⟩ 1
      ⟨⟨1, []⟩, []⟩ [1]).calls = [.materialize] ∧
    (getAmplitude ⟨[((1 : ℚ), (0 : ℚ)), (0, 0)], fun _ _ => [cZero]⟩ 1
      ⟨⟨1, []⟩, []⟩ [1]).result = .ok (0, 0) := by
  have h := ((getAmplitude_strategy
    ⟨[((1 : ℚ), (0 : ℚ)), (0, 0)], fun _ _ => [cZero]⟩ 1 ⟨⟨1, []⟩, []⟩ [1]
    rfl rfl (by decide) (by decide)).1 (by decide)).1 rfl
  exact ⟨h.1, h.2.2.2⟩

/-- Claim C6: at or below the threshold, the cached-vector index used by
`getAmplitude` is the little-endian value Σ bᵢ·2ⁱ (qubit 0 least
significant), computed by the fold scanning the assignment from the last
qubit to the first, and the returned amplitude is the cached state vector's
entry at that index. -/
theorem getAmplitude_little_endian_index (bk : ContractionBackend)
    (thresh : Nat) (m : TensorNetSimulationState) (b : List Int)
    (hlen : m.m_state.numQubits = b.length)
    (hbits : ∀ x ∈ b, x = 0 ∨ x = 1) (hne : b ≠ [])
    (hth : m.m_state.numQubits ≤ thresh) :
    basisStateIndex b =
      ∑ i ∈ Finset.range b.length, (b.getD i 0).toNat * 2 ^ i ∧
    (getAmplitude bk thresh m b).result =
      .ok ((if m.m_contractedStateVec.isEmpty then bk.stateVector
        else m.m_contractedStateVec).getD
          (∑ i ∈ Finset.range b.length, (b.getD i 0).toNat * 2 ^ i) cZero) := by
  have hsum := basisStateIndex_eq_sum b
  refine ⟨hsum, ?_⟩
  have h2 := any_nonbit_eq_false hbits
  have h3 : b.isEmpty = false := (list_isEmpty_false_iff b).mpr hne
  have key := getAmplitude_valid_eq bk thresh m b hlen h2 h3
  rw [if_pos hth] at key
  by_cases hc : m.m_contractedStateVec.isEmpty = true
  · rw [if_pos hc] at key
    rw [key, if_pos hc, ← hsum]
  · rw [if_neg hc] at key
    rw [key, if_neg hc, ← hsum]

/-- Witness for C6: two qubits, assignment `[1, 0]`, index `1·2⁰ + 0·2¹ = 1`,
answered from the freshly cached backend vector. -/
theorem getAmplitude_little_endian_index_witness :
    basisStateIndex [1, 0] =
      ∑ i ∈ Finset.range 2, (([1, 0] : List Int).getD i 0).toNat * 2 ^ i ∧
    (getAmplitude ⟨[(0, 0), ((5 : ℚ), (0 : ℚ)), (0, 0), (0, 0)],
        fun _ _ => [cZero]⟩ 2 ⟨⟨2, []⟩, []⟩ [1, 0]).result =
      .ok ((5 : ℚ), (0 : ℚ)) := by
  have h := getAmplitude_little_endian_index
    ⟨[(0, 0), ((5 : ℚ), (0 : ℚ)), (0, 0), (0, 0)], fun _ _ => [cZero]⟩ 2
    ⟨⟨2, []⟩, []⟩ [1, 0] rfl (by decide) (by decide) (by decide)
  exact ⟨h.1, h.2⟩

/-- Claim C7: `getAmplitude` fails — with `InvalidArgument`, issuing no
backend query and leaving the manager unchanged — exactly when the
assignment's length differs from `numQubits`, or some element is neither 0
nor 1, or the assignment is empty. -/
theorem getAmplitude_invalid_argument_iff (bk : ContractionBackend)
    (thresh : Nat) (m : TensorNetSimulationState) (b : List Int) :
    ((∃ e, (getAmplitude bk thresh m b).result = .error e) ↔
      (b.length ≠ m.m_state.numQubits ∨ (∃ x ∈ b, x ≠ 0 ∧ x ≠ 1) ∨ b = [])) ∧
    ((b.length ≠ m.m_state.numQubits ∨ (∃ x ∈ b, x ≠ 0 ∧ x ≠ 1) ∨ b = []) →
      (getAmplitude bk thresh m b).result = .error .invalidArgument ∧
      (getAmplitude bk thresh m b).calls = [] ∧
      (getAmplitude bk thresh m b).mgr = m) := by
  by_cases h1 : m.m_state.numQubits = b.length
  · by_cases h2 : (b.any fun x => x != 0 && x != 1) = true
    · rw [getAmplitude_guard_bits bk thresh m b h1 h2]
      exact ⟨⟨fun _ => Or.inr (Or.inl (any_nonbit_iff.mp h2)),
        fun _ => ⟨.invalidArgument, rfl⟩⟩, fun _ => ⟨rfl, rfl, rfl⟩⟩
    · have h2' : (b.any fun x => x != 0 && x != 1) = false :=
        Bool.eq_false_iff.mpr h2
      by_cases h3 : b = []
      · have h3' : b.isEmpty = true := (list_isEmpty_true_iff b).mpr h3
        rw [getAmplitude_guard_empty bk thresh m b h1 h2' h3']
        exact ⟨⟨fun _ => Or.inr (Or.inr h3),
          fun _ => ⟨.invalidArgument, rfl⟩⟩, fun _ => ⟨rfl, rfl, rfl⟩⟩
      · have h3' : b.isEmpty = false := (list_isEmpty_false_iff b).mpr h3
        have key := getAmplitude_valid_eq bk thresh m b h1 h2' h3'
        have hnod : ¬(b.length ≠ m.m_state.numQubits ∨
            (∃ x ∈ b, x ≠ 0 ∧ x ≠ 1) ∨ b = []) := by
          rintro (hd | hd | hd)
          · exact hd h1.symm
          · exact h2 (any_nonbit_iff.mpr hd)
          · exact h3 hd
        refine ⟨⟨?_, fun hd => absurd hd hnod⟩, fun hd => absurd hd hnod⟩
        rintro ⟨e, he⟩
        exfalso
        rw [key] at he
        by_cases h4 : m.m_state.numQubits ≤ thresh
        · by_cases h5 : m.m_contractedStateVec.isEmpty = true
          · simp [h4, h5] at he
          · simp [h4, h5] at he
        · simp [h4] at he
  · rw [getAmplitude_guard_len bk thresh m b h1]
    exact ⟨⟨fun _ => Or.inl (fun hl => h1 hl.symm),
      fun _ => ⟨.invalidArgument, rfl⟩⟩, fun _ => ⟨rfl, rfl, rfl⟩⟩

/-- Witness for C7: `[2]` contains a non-0/1 entry, so the call fails with
`InvalidArgument`, issuing no backend query. -/
theorem getAmplitude_invalid_argument_iff_witness :
    (getAmplitude ⟨[], fun _ _ => []⟩ 1 ⟨⟨1, []⟩, []⟩ [2]).result =
      .error .invalidArgument ∧
    (getAmplitude ⟨[], fun _ _ => []⟩ 1 ⟨⟨1, []⟩, []⟩ [2]).calls = [] := by
  have h := (getAmplitude_invalid_argument_iff ⟨[], fun _ _ => []⟩ 1
    ⟨⟨1, []⟩, []⟩ [2]).2 (Or.inr (Or.inl ⟨2, by decide, by decide, by decide⟩))
  exact ⟨h.1, h.2.1⟩

/-- Claim C10: on a zero-qubit manager `getAmplitude` never returns a value.
The empty assignment passes the length guard (0 = 0) and vacuously the 0/1
guard, but still hits the empty-basis-state guard; any nonempty assignment
fails the length guard.  Either way the call fails with `InvalidArgument`,
issues no backend query and leaves the manager unchanged. -/
theorem getAmplitude_zero_qubit_always_fails (bk : ContractionBackend)
    (thresh : Nat) (m : TensorNetSimulationState) (b : List Int)
    (h0 : m.m_state.numQubits = 0) :
    (getAmplitude bk thresh m b).result = .error .invalidArgument ∧
    (getAmplitude bk thresh m b).calls = [] ∧
    (getAmplitude bk thresh m b).mgr = m := by
  cases b with
  | nil =>
    rw [getAmplitude_guard_empty bk thresh m [] (by simp [h0]) rfl rfl]
    exact ⟨rfl, rfl, rfl⟩
  | cons x t =>
    rw [getAmplitude_guard_len bk thresh m (x :: t) (by simp [h0])]
    exact ⟨rfl, rfl, rfl⟩

/-- Witness for C10: the empty assignment on a zero-qubit manager. -/
theorem getAmplitude_zero_qubit_always_fails_witness :
    (getAmplitude ⟨[], fun _ _ => []⟩ 1 ⟨⟨0, []⟩, []⟩ []).result =
      .error .invalidArgument :=
  (getAmplitude_zero_qubit_always_fails ⟨[], fun _ _ => []⟩ 1
    ⟨⟨0, []⟩, []⟩ [] rfl).1

/-- Under the backend size contract, `toHost` reduces to a success/failure
case split on `numElements = 2^numQubits`. -/
theorem toHost_eq (bk : ContractionBackend) (m : TensorNetSimulationState)
    (numElements : Nat)
    (hbk : bk.stateVector.length = 2 ^ m.m_state.numQubits) :
    toHost bk m numElements =
      if numElements = 2 ^ m.m_state.numQubits then
        ⟨.ok bk.stateVector, m, [.materialize]⟩
      else ⟨.error .dimensionMismatch, m, [.materialize]⟩ := by
  have key : toHost bk m numElements =
      if bk.stateVector.length ≠ numElements then
        ⟨.error .dimensionMismatch, m, [.materialize]⟩
      else ⟨.ok bk.stateVector, m, [.materialize]⟩ := rfl
  rw [key, hbk]
  by_cases hn : numElements = 2 ^ m.m_state.numQubits
  · rw [if_neg (by simp [hn]), if_pos hn]
  · rw [if_pos (Ne.symm hn), if_neg hn]

/-- `toHost` reads nothing from the amplitude cache: its result is the same
for any cache contents. -/
theorem toHost_result_cache_independent (bk : ContractionBackend)
    (m : TensorNetSimulationState) (cache : List CC) (numElements : Nat) :
    (toHost bk { m with m_contractedStateVec := cache } numElements).result =
      (toHost bk m numElements).result := by
  unfold toHost
  by_cases h : bk.stateVector.length ≠ numElements <;> simp [h]

/-- Claim C8: `toHost` fails with `DimensionMismatch` exactly when the
buffer length differs from `2^numQubits`; on success it delivers all
`2^numQubits` amplitudes of a fresh backend materialization (exactly one
`materialize` query on every path); it never populates the manager's cache
(manager unchanged) and never reads it (result independent of cache
contents). -/
theorem toHost_spec (bk : ContractionBackend) (m : TensorNetSimulationState)
    (numElements : Nat)
    (hbk : bk.stateVector.length = 2 ^ m.m_state.numQubits) :
    ((∃ e, (toHost bk m numElements).result = .error e) ↔
      numElements ≠ 2 ^ m.m_state.numQubits) ∧
    (numElements ≠ 2 ^ m.m_state.numQubits →
      (toHost bk m numElements).result = .error .dimensionMismatch) ∧
    (numElements = 2 ^ m.m_state.numQubits →
      (toHost bk m numElements).result = .ok bk.stateVector) ∧
    (toHost bk m numElements).calls = [.materialize] ∧
    (toHost bk m numElements).mgr = m ∧
    (∀ cache : List CC,
      (toHost bk { m with m_contractedStateVec := cache } numElements).result =
        (toHost bk m numElements).result) := by
  have key := toHost_eq bk m numElements hbk
  by_cases hn : numElements = 2 ^ m.m_state.numQubits
  · rw [if_pos hn] at key
    refine ⟨⟨?_, fun h => absurd hn h⟩, fun h => absurd hn h,
      fun _ => by rw [key], by rw [key], by rw [key],
      fun cache => toHost_result_cache_independent bk m cache numElements⟩
    rintro ⟨e, he⟩
    rw [key] at he
    simp at he
  · rw [if_neg hn] at key
    exact ⟨⟨fun _ => hn, fun _ => ⟨.dimensionMismatch, by rw [key]⟩⟩,
      fun _ => by rw [key], fun h => absurd h hn, by rw [key], by rw [key],
      fun cache => toHost_result_cache_independent bk m cache numElements⟩

/-- Witness for C8: a one-qubit state (backend vector of length 2); a
3-element buffer fails with `DimensionMismatch`, a 2-element buffer receives
the materialized vector. -/
theorem toHost_spec_witness :
    (toHost ⟨[((1 : ℚ), (0 : ℚ)), (0, 0)], fun _ _ => []⟩
      ⟨⟨1, []⟩, []⟩ 3).result = .error .dimensionMismatch ∧
    (toHost ⟨[((1 : ℚ), (0 : ℚ)), (0, 0)], fun _ _ => []⟩
      ⟨⟨1, []⟩, []⟩ 2).result = .ok [((1 : ℚ), (0 : ℚ)), (0, 0)] := by
  refine ⟨(toHost_spec ⟨[((1 : ℚ), (0 : ℚ)), (0, 0)], fun _ _ => []⟩
    ⟨⟨1, []⟩, []⟩ 3 rfl).2.1 (by decide), ?_⟩
  exact (toHost_spec ⟨[((1 : ℚ), (0 : ℚ)), (0, 0)], fun _ _ => []⟩
    ⟨⟨1, []⟩, []⟩ 2 rfl).2.2.1 rfl

/-- Claim C9: `getTensor i` fails with `OutOfRange` exactly when
`i ≥ getNumTensors()` (in particular at `i = getNumTensors()`); below the
bound it returns a tensor whose extents are `2` repeated `2·|targets|` times
and whose data field is record `i`'s device-data handle itself (aliased, no
copy). -/
theorem getTensor_spec (m : TensorNetSimulationState) (tensorIdx : Nat) :
    (getTensor m tensorIdx = .error .outOfRange ↔
      getNumTensors m ≤ tensorIdx) ∧
    getTensor m (getNumTensors m) = .error .outOfRange ∧
    (∀ h : tensorIdx < getNumTensors m,
      getTensor m tensorIdx =
        .ok ⟨(m.m_state.tensorOps.get ⟨tensorIdx, h⟩).deviceData,
          List.replicate
            (2 * (m.m_state.tensorOps.get
              ⟨tensorIdx, h⟩).targetQubitIds.length) 2,
          .fp64⟩) := by
  refine ⟨⟨?_, ?_⟩, ?_, ?_⟩
  · intro h
    by_contra hlt
    simp [getTensor, dif_neg hlt] at h
  · intro h
    simp [getTensor, dif_pos h]
  · simp [getTensor]
  · intro h
    simp [getTensor, dif_neg (Nat.not_le_of_lt h)]

/-- Witness for C9: a single-record manager; index 1 (= `getNumTensors`) is
out of range, index 0 exports handle 5 with extents `[2, 2]`. -/
theorem getTensor_spec_witness :
    getTensor ⟨⟨1, [⟨[0], [], 5, true, false⟩]⟩, []⟩ 1 =
      .error .outOfRange ∧
    getTensor ⟨⟨1, [⟨[0], [], 5, true, false⟩]⟩, []⟩ 0 =
      .ok ⟨5, [2, 2], .fp64⟩ := by
  refine ⟨(getTensor_spec ⟨⟨1, [⟨[0], [], 5, true, false⟩]⟩, []⟩ 1).1.mpr
    (by decide), ?_⟩
  exact (getTensor_spec ⟨⟨1, [⟨[0], [], 5, true, false⟩]⟩, []⟩ 0).2.2
    (by decide)

end nvqir
